import Mathlib

/-!
Verification of the learning-loop core of the two_resource_environment
repository (file two_resource_dqn/dqn_agent.py).

The Python code is shallowly embedded: tensors of rationals stand for
torch tensors (values only; detach is the identity on values), the
replay deque with maxlen is a list together with a capacity, Python
exceptions (AssertionError, IndexError, RuntimeError) are Option.none,
and the random number generator is an explicit oracle parameter.
-/

/-- Observation named tuple from dqn_agent.py: an image (kept abstract,
the claims never inspect pixel values) and a rational vector. -/
structure Observation (Img : Type) where
  image : Img
  vector : List ℚ
deriving DecidableEq

/-- Experience named tuple from dqn_agent.py. -/
structure Experience (Img : Type) where
  observation : Observation Img
  action : ℕ
  next_observation : Observation Img
deriving DecidableEq

/-- One `deque(maxlen=cap).append` step of ReplayBuffer.append: the new
element goes to the tail and, past capacity, the oldest element is
dropped from the head (for cap = 0 the deque stays empty). -/
def ReplayBuffer.append (cap : ℕ) (buf : List α) (e : α) : List α :=
  let b := buf ++ [e]
  b.drop (b.length - cap)

/-- A whole run of ReplayBuffer.append calls starting from the empty
buffer produced by ReplayBuffer.__init__. -/
def ReplayBuffer.appendAll (cap : ℕ) (es : List α) : List α :=
  es.foldl (ReplayBuffer.append cap) []

/-- ReplayBuffer.clear: buffer_experience.clear(). -/
def ReplayBuffer.clear (buf : List α) : List α :=
  buf.drop buf.length

/-- Python sequence indexing buf[t] with the usual negative-index rule:
a negative t counts from the tail, and an index out of range on either
side raises IndexError (modelled as none). -/
def pySeqGet (buf : List α) (t : ℤ) : Option α :=
  if 0 ≤ t then buf.get? t.toNat
  else if -t ≤ (buf.length : ℤ) then buf.get? (buf.length - (-t).toNat)
  else none

/-- ReplayBuffer.get_single_experience: asserts
n_experience - 1 > time_step (AssertionError modelled as none), then
indexes the deque, which itself can raise IndexError for a negative
index below -n_experience. -/
def ReplayBuffer.get_single_experience (buf : List α) (time_step : ℤ) : Option α :=
  if time_step < (buf.length : ℤ) - 1 then pySeqGet buf time_step
  else none

/-- random.choice(range(n)) driven by a raw draw v: uniform residue
v % n of the oracle value; on an empty range it raises (none), as
random.choice does. -/
def randChoiceRange (n : ℕ) (v : ℕ) : Option ℕ :=
  if n = 0 then none else some (v % n)

/-- The loop body of ReplayBuffer.get_batch_experience over the list of
loop indices: each iteration draws index = random.choice(range(n_experience - 1))
and appends get_single_experience(index); the first failure aborts. -/
def ReplayBuffer.getBatchAux (buf : List α) (r : ℕ → ℕ) : List ℕ → Option (List α)
  | [] => some []
  | i :: rest =>
    match randChoiceRange (buf.length - 1) (r i) with
    | none => none
    | some idx =>
      match ReplayBuffer.get_single_experience buf (idx : ℤ) with
      | none => none
      | some e =>
        match ReplayBuffer.getBatchAux buf r rest with
        | none => none
        | some tail => some (e :: tail)

/-- ReplayBuffer.get_batch_experience(batch_size) with the random draws
supplied by the oracle r. -/
def ReplayBuffer.get_batch_experience (buf : List α) (batch_size : ℕ) (r : ℕ → ℕ) :
    Option (List α) :=
  ReplayBuffer.getBatchAux buf r (List.range batch_size)

/-- torch clamp(x, min=lo, max=hi) for lo ≤ hi. -/
def clampQ (x lo hi : ℚ) : ℚ := max lo (min x hi)

/-- DQNAgent.reward: -0.01 * vector_obs.pow(2.0).sum(), clamped to
[-3, 3]; detach is the identity on values. The next_vector_obs argument
is accepted and ignored, exactly as in the source. -/
def DQNAgent.reward (vector_obs next_vector_obs : List ℚ) : ℚ :=
  clampQ ((-1 / 100) * ((vector_obs.map (fun x => x ^ 2)).sum)) (-3) 3

/-- Modelled from the words of the spec, for comparison with
DQNAgent.reward: computes -0.01 * sum of squares of the pre-transition
vector, then clamps the result to the closed interval [-3, 3] written
as the two boundary cases. -/
def specReward (vector_obs : List ℚ) : ℚ :=
  let raw := (-1 / 100) * ((vector_obs.map (fun x => x ^ 2)).sum)
  if raw < -3 then -3 else if 3 < raw then 3 else raw

/-- torch .max() over the entries of a nonempty 1-d tensor; the empty
case never occurs (n_action ≥ 1) and is given the junk value 0. -/
def tensorMax : List ℚ → ℚ
  | [] => 0
  | a :: rest => rest.foldl max a

/-- The loss computation of DQNAgent.train, lines 190-206: the online
q-value for the stored action, the detached target-network maximum at
the next observation, the reward on the two vector observations, the
clamped squared TD error accumulated into loss, finally loss /= batch_size.
The two networks enter as score functions of the stored data. -/
def DQNAgent.train_loss (qnet : Observation Img → ℕ → ℚ)
    (qnet_support : Observation Img → List ℚ)
    (reward_discount : ℚ) (batch_size : ℚ) (batch : List (Experience Img)) : ℚ :=
  (batch.foldl (fun loss experience =>
    let q_val := qnet experience.observation experience.action
    let q_vec_next := tensorMax (qnet_support experience.next_observation)
    let reward_tensor := DQNAgent.reward experience.observation.vector
      experience.next_observation.vector
    let target := reward_tensor + reward_discount * q_vec_next
    loss + (clampQ (target - q_val) (-1) 1) ^ 2) 0) / batch_size

/-- Modelled from the words of the spec, for comparison with
DQNAgent.train_loss: the sum over the batch of the squared clamped TD
errors, divided by batch_size. -/
def specBatchLoss (qnet : Observation Img → ℕ → ℚ)
    (qnet_support : Observation Img → List ℚ)
    (reward_discount : ℚ) (batch_size : ℚ) (batch : List (Experience Img)) : ℚ :=
  ((batch.map (fun experience =>
    (clampQ ((DQNAgent.reward experience.observation.vector
        experience.next_observation.vector
      + reward_discount * tensorMax (qnet_support experience.next_observation))
      - qnet experience.observation experience.action) (-1) 1) ^ 2)).sum) / batch_size

/-- The DQNAgent mutable state touched by train and by the target-sync
block of step: the two parameter sets (abstract type P), the tick
counter and the replay buffer contents. -/
structure AgentState (P Img : Type) where
  qnet : P
  qnet_support : P
  time_tick : ℕ
  replay : List (Experience Img)
deriving DecidableEq

/-- DQNAgent.train, lines 187-208: draw a batch from the replay buffer
(propagating its failure), then let the optimizer built over
qnet.parameters() update the online parameters; the optimizer step is
abstracted as a function of the online parameters, the support
parameters (the loss reads them) and the batch. -/
def DQNAgent.train (optStep : P → P → List (Experience Img) → P)
    (batch_size : ℕ) (r : ℕ → ℕ) (s : AgentState P Img) :
    Option (AgentState P Img) :=
  match ReplayBuffer.get_batch_experience s.replay batch_size r with
  | none => none
  | some batch => some { s with qnet := optStep s.qnet s.qnet_support batch }

/-- The tail of DQNAgent.step, lines 162-175: the online network may
first be updated by train (abstracted as trainUpdate), then the sync
block runs: if time_tick == iteration the support network receives a
copy of the online parameters and the tick resets to 0, otherwise the
tick is incremented. -/
def DQNAgent.stepSync (iteration : ℕ) (trainUpdate : P → P)
    (s : AgentState P Img) : AgentState P Img :=
  let q := trainUpdate s.qnet
  if s.time_tick = iteration then
    { s with qnet := q, qnet_support := q, time_tick := 0 }
  else
    { s with qnet := q, time_tick := s.time_tick + 1 }

/-- n consecutive DQNAgent.step calls, the online update of call k
given by u k. -/
def DQNAgent.stepSyncIter (iteration : ℕ) (u : ℕ → P → P)
    (s0 : AgentState P Img) : ℕ → AgentState P Img
  | 0 => s0
  | n + 1 => DQNAgent.stepSync iteration (u n) (DQNAgent.stepSyncIter iteration u s0 n)

/-- A named torch tensor reduced to what load_state_dict inspects: its
shape, and its payload of values. -/
structure PTensor where
  shape : List ℕ
  data : List ℚ
deriving DecidableEq

/-- A state_dict: the named parameters and buffers of a module in
order. -/
def StateDict : Type := List (String × PTensor)

instance : DecidableEq StateDict := by
  unfold StateDict
  infer_instance

/-- The parameter and buffer shapes of QNet(n_images, vector_dim,
n_action) from dqn_agent.py lines 11-25: conv1 has
in_channels = 3 * n_images, so only its weight shape depends on
n_images. -/
def QNet.param_shapes (n_images vector_dim n_action : ℕ) : List (String × List ℕ) :=
  [("conv1.weight", [8, 3 * n_images, 3, 3]), ("conv1.bias", [8]),
   ("bn1.weight", [8]), ("bn1.bias", [8]),
   ("bn1.running_mean", [8]), ("bn1.running_var", [8]), ("bn1.num_batches_tracked", []),
   ("conv2.weight", [16, 8, 3, 3]), ("conv2.bias", [16]),
   ("bn2.weight", [16]), ("bn2.bias", [16]),
   ("bn2.running_mean", [16]), ("bn2.running_var", [16]), ("bn2.num_batches_tracked", []),
   ("fc_vec.weight", [50, vector_dim]), ("fc_vec.bias", [50]),
   ("fc1.weight", [400, 12594]), ("fc1.bias", [400]),
   ("fc2.weight", [n_action, 400]), ("fc2.bias", [n_action])]

/-- The state_dict of a freshly constructed QNet, the initial values
supplied by the framework initializer init. -/
def QNet.init_state_dict (n_images vector_dim n_action : ℕ)
    (init : String → List ℕ → List ℚ) : StateDict :=
  (QNet.param_shapes n_images vector_dim n_action).map
    (fun p => (p.1, PTensor.mk p.2 (init p.1 p.2)))

/-- Module.load_state_dict in strict mode: when every key and every
shape of the destination matches the source, every destination value is
overwritten with the source value, so the result is the source dict;
any key or size mismatch raises RuntimeError (none). -/
def load_state_dict (dst src : StateDict) : Option StateDict :=
  if List.map (fun p => (p.1, p.2.shape)) dst = List.map (fun p => (p.1, p.2.shape)) src
  then some src
  else none

/-- DQNAgent.__init__ lines 106-112: build qnet with
n_images = input_time_horizon and qnet_support with n_images = 1 (both
with vector_dim 2), then qnet_support.load_state_dict(qnet.state_dict());
the constructor propagates the RuntimeError of a size mismatch. -/
def DQNAgent.init_networks (input_time_horizon n_action : ℕ)
    (initQ initS : String → List ℕ → List ℚ) : Option (StateDict × StateDict) :=
  let qnet := QNet.init_state_dict input_time_horizon 2 n_action initQ
  let qnet_support := QNet.init_state_dict 1 2 n_action initS
  match load_state_dict qnet_support qnet with
  | none => none
  | some d => some (qnet, d)

/-- Concrete observations and experiences used by witnesses. -/
def sampleObs (n : ℕ) : Observation ℕ := ⟨n, [(n : ℚ)]⟩

/-- Concrete experiences used by witnesses. -/
def sampleExp (n : ℕ) : Experience ℕ := ⟨sampleObs n, n, sampleObs (n + 1)⟩

/-- A run of appends keeps the sliding window of the most recent cap
elements: foldl from a buffer already within capacity. -/
lemma ReplayBuffer.appendAll_run (cap : ℕ) (es : List α) :
    ∀ buf : List α, buf.length ≤ cap →
      es.foldl (ReplayBuffer.append cap) buf =
        (buf ++ es).drop (buf.length + es.length - cap) := by
  induction es with
  | nil =>
    intro buf h
    simp [Nat.sub_eq_zero_of_le h]
  | cons e es ih =>
    intro buf h
    have hd : ReplayBuffer.append cap buf e =
        (buf ++ [e]).drop (buf.length + 1 - cap) := by
      simp [ReplayBuffer.append]
    have hlen : (ReplayBuffer.append cap buf e).length ≤ cap := by
      rw [hd, List.length_drop]
      simp
      omega
    rw [List.foldl_cons, ih (ReplayBuffer.append cap buf e) hlen, hd, List.length_drop]
    rw [← List.drop_append_of_le_length (by simp)]
    rw [List.drop_drop]
    have hassoc : buf ++ [e] ++ es = buf ++ e :: es := by simp
    rw [hassoc]
    congr 1
    simp
    omega

/-- C2: for every sequence of ReplayBuffer.append calls the size never
exceeds the capacity, an append never shrinks the buffer (size shrinks
only through clear, which empties it), and after cap + k appends the
buffer holds exactly the last cap appended experiences, oldest
first. -/
theorem replayBuffer_capacity_window (Img : Type) (cap k : ℕ)
    (es buf : List (Experience Img)) (e : Experience Img) :
    (ReplayBuffer.appendAll cap es).length ≤ cap
    ∧ (buf.length ≤ cap →
        buf.length ≤ (ReplayBuffer.append cap buf e).length
        ∧ (ReplayBuffer.append cap buf e).length ≤ cap)
    ∧ ReplayBuffer.clear buf = []
    ∧ (es.length = cap + k → ReplayBuffer.appendAll cap es = es.drop k) := by
  have hrun : ReplayBuffer.appendAll cap es = es.drop (es.length - cap) := by
    have h := ReplayBuffer.appendAll_run cap es [] (by simp)
    simpa [ReplayBuffer.appendAll] using h
  refine ⟨?_, ?_, ?_, ?_⟩
  · rw [hrun, List.length_drop]
    omega
  · intro h
    have : (ReplayBuffer.append cap buf e).length = (buf.length + 1) - (buf.length + 1 - cap) := by
      simp [ReplayBuffer.append]
    rw [this]
    omega
  · simp [ReplayBuffer.clear]
  · intro h
    rw [hrun, h]
    congr 1
    omega

/-- Witness for C2 at capacity 2 with three appended experiences. -/
theorem replayBuffer_capacity_window_witness :
    (ReplayBuffer.appendAll 2 [sampleExp 0, sampleExp 1, sampleExp 2]).length ≤ 2
    ∧ ([sampleExp 0].length ≤ (ReplayBuffer.append 2 [sampleExp 0] (sampleExp 1)).length
        ∧ (ReplayBuffer.append 2 [sampleExp 0] (sampleExp 1)).length ≤ 2)
    ∧ ReplayBuffer.clear [sampleExp 0] = []
    ∧ ReplayBuffer.appendAll 2 [sampleExp 0, sampleExp 1, sampleExp 2]
        = [sampleExp 0, sampleExp 1, sampleExp 2].drop 1 := by
  have h := replayBuffer_capacity_window ℕ 2 1
    [sampleExp 0, sampleExp 1, sampleExp 2] [sampleExp 0] (sampleExp 1)
  exact ⟨h.1, h.2.1 (by decide), h.2.2.1, h.2.2.2 (by decide)⟩

/-- C5: get_single_experience fails (assertion) on every index at or
beyond size - 1, never clamping, and succeeds on index 0 for a buffer
of size at least 2, returning the oldest entry. -/
theorem get_single_experience_range (Img : Type)
    (buf : List (Experience Img)) (t : ℤ) :
    ((buf.length : ℤ) - 1 ≤ t → ReplayBuffer.get_single_experience buf t = none)
    ∧ (2 ≤ buf.length → ReplayBuffer.get_single_experience buf 0 = buf.head?) := by
  constructor
  · intro h
    unfold ReplayBuffer.get_single_experience
    rw [if_neg (by omega)]
  · intro h2
    unfold ReplayBuffer.get_single_experience pySeqGet
    rw [if_pos (by omega), if_pos (by omega)]
    simpa using List.get?_zero buf

/-- Witness for C5 on a two-element buffer. -/
theorem get_single_experience_range_witness :
    ReplayBuffer.get_single_experience [sampleExp 0, sampleExp 1] 1 = none
    ∧ ReplayBuffer.get_single_experience [sampleExp 0, sampleExp 1] 0
        = some (sampleExp 0) := by
  have h := get_single_experience_range ℕ [sampleExp 0, sampleExp 1] 1
  exact ⟨h.1 (by decide), (h.2 (by decide)).trans rfl⟩

/-- Counterexample to C10 as stated: on a buffer of size 1 the negative
index -2 passes the assertion but the deque access itself raises
IndexError, so not every negative index is accepted without raising. -/
theorem get_single_experience_negative_cex :
    ReplayBuffer.get_single_experience [sampleExp 0] (-2) = none := by decide

/-- C10 amended: the precondition of get_single_experience only bounds
the index from above, so every negative index passes the assertion; a
negative index t with -size ≤ t is then served from the newest end
(position size + t from the oldest, with t = -1 the most recent
experience), while t < -size fails the deque access itself. -/
theorem get_single_experience_negative (Img : Type)
    (buf : List (Experience Img)) (t : ℤ) (h1 : 1 ≤ buf.length) (hneg : t < 0) :
    t < (buf.length : ℤ) - 1
    ∧ (-(buf.length : ℤ) ≤ t →
        ReplayBuffer.get_single_experience buf t = buf.get? (buf.length - (-t).toNat)
        ∧ ∃ e, ReplayBuffer.get_single_experience buf t = some e)
    ∧ ReplayBuffer.get_single_experience buf (-1) = buf.getLast?
    ∧ (t < -(buf.length : ℤ) → ReplayBuffer.get_single_experience buf t = none) := by
  refine ⟨by omega, ?_, ?_, ?_⟩
  · intro hge
    have heq : ReplayBuffer.get_single_experience buf t
        = buf.get? (buf.length - (-t).toNat) := by
      unfold ReplayBuffer.get_single_experience pySeqGet
      rw [if_pos (by omega), if_neg (by omega), if_pos (by omega)]
    refine ⟨heq, ?_⟩
    have hlt : buf.length - (-t).toNat < buf.length := by omega
    exact ⟨buf.get ⟨buf.length - (-t).toNat, hlt⟩, heq.trans (List.get?_eq_get hlt)⟩
  · unfold ReplayBuffer.get_single_experience pySeqGet
    rw [if_pos (by omega), if_neg (by omega), if_pos (by omega)]
    rw [List.getLast?_eq_get?]
    norm_num
  · intro hlt
    unfold ReplayBuffer.get_single_experience pySeqGet
    rw [if_pos (by omega), if_neg (by omega), if_neg (by omega)]

/-- Witness for the amended C10 on a two-element buffer at t = -1. -/
theorem get_single_experience_negative_witness :
    ((-1 : ℤ) < (2 : ℤ) - 1)
    ∧ ReplayBuffer.get_single_experience [sampleExp 0, sampleExp 1] (-1)
        = some (sampleExp 1) := by
  have h := get_single_experience_negative ℕ [sampleExp 0, sampleExp 1] (-1)
    (by decide) (by decide)
  exact ⟨by exact_mod_cast h.1, h.2.2.1.trans rfl⟩

/-- On a buffer of size at least 2 every loop of get_batch_experience
succeeds: each iteration draws the residue of the oracle value modulo
size - 1 and reads that ordinal position of the buffer. -/
lemma ReplayBuffer.getBatchAux_sound (buf : List α) (r : ℕ → ℕ)
    (h2 : 2 ≤ buf.length) :
    ∀ is : List ℕ, ∃ b, ReplayBuffer.getBatchAux buf r is = some b
      ∧ b.length = is.length
      ∧ ∀ j i, is.get? j = some i →
          b.get? j = buf.get? (r i % (buf.length - 1)) := by
  intro is
  induction is with
  | nil =>
    refine ⟨[], rfl, rfl, ?_⟩
    intro j i h
    simp at h
  | cons i rest ih =>
    obtain ⟨tail, htail, hlen, hget⟩ := ih
    have hn : buf.length - 1 ≠ 0 := by omega
    have hidx : r i % (buf.length - 1) < buf.length - 1 := Nat.mod_lt _ (by omega)
    have hchoice : randChoiceRange (buf.length - 1) (r i)
        = some (r i % (buf.length - 1)) := by
      unfold randChoiceRange
      rw [if_neg hn]
    have hsingle : ReplayBuffer.get_single_experience buf
        ((r i % (buf.length - 1) : ℕ) : ℤ) = buf.get? (r i % (buf.length - 1)) := by
      unfold ReplayBuffer.get_single_experience pySeqGet
      rw [if_pos (by omega), if_pos (by omega)]
      norm_cast
    obtain ⟨e, he⟩ : ∃ e, buf.get? (r i % (buf.length - 1)) = some e :=
      ⟨_, List.get?_eq_get (by omega)⟩
    refine ⟨e :: tail, ?_, by simp [hlen], ?_⟩
    · simp only [ReplayBuffer.getBatchAux, hchoice, hsingle, he, htail]
    · intro j i2 hj
      cases j with
      | zero =>
        simp only [List.get?_cons_zero, Option.some.injEq] at hj
        subst hj
        rw [List.get?_cons_zero]
        exact he.symm
      | succ j2 =>
        rw [List.get?_cons_succ] at hj ⊢
        exact hget j2 i2 hj

/-- C6 amended: on a buffer of size at least 2, get_batch_experience
returns exactly batch_size experiences, the j-th being the buffer entry
at the uniform residue of the j-th oracle draw modulo size - 1 (an
ordinal index between 0 and size - 2, draws independent and with
replacement); on a buffer of size below 2 it fails provided at least
one draw is attempted (batch_size at least 1). -/
theorem get_batch_experience_sampling (Img : Type)
    (buf : List (Experience Img)) (batch_size : ℕ) (r : ℕ → ℕ) :
    (2 ≤ buf.length → ∃ batch,
      ReplayBuffer.get_batch_experience buf batch_size r = some batch
      ∧ batch.length = batch_size
      ∧ ∀ j, j < batch_size →
          r j % (buf.length - 1) ≤ buf.length - 2
          ∧ batch.get? j = buf.get? (r j % (buf.length - 1)))
    ∧ (1 ≤ batch_size → buf.length < 2 →
        ReplayBuffer.get_batch_experience buf batch_size r = none) := by
  constructor
  · intro h2
    obtain ⟨b, hb, hlen, hget⟩ :=
      ReplayBuffer.getBatchAux_sound buf r h2 (List.range batch_size)
    refine ⟨b, hb, by simpa using hlen, ?_⟩
    intro j hj
    refine ⟨?_, hget j j (List.get?_range hj)⟩
    have := Nat.mod_lt (r j) (y := buf.length - 1) (by omega)
    omega
  · intro hbs hlen
    obtain ⟨m, rfl⟩ : ∃ m, batch_size = m + 1 :=
      ⟨batch_size - 1, by omega⟩
    have hz : buf.length - 1 = 0 := by omega
    have hchoice : randChoiceRange (buf.length - 1) (r 0) = none := by
      unfold randChoiceRange
      rw [if_pos hz]
    unfold ReplayBuffer.get_batch_experience
    rw [List.range_succ_eq_map]
    simp only [ReplayBuffer.getBatchAux, hchoice]

/-- Witness for the amended C6: a three-element buffer, two draws with
the identity oracle, and the failing size-1 buffer with one draw. -/
theorem get_batch_experience_sampling_witness :
    ReplayBuffer.get_batch_experience [sampleExp 0, sampleExp 1, sampleExp 2] 2
        (fun j => j) = some [sampleExp 0, sampleExp 1]
    ∧ ReplayBuffer.get_batch_experience [sampleExp 0] 1 (fun j => j) = none := by
  have h := get_batch_experience_sampling ℕ [sampleExp 0, sampleExp 1, sampleExp 2]
    2 (fun j => j)
  have hfail := get_batch_experience_sampling ℕ [sampleExp 0] 1 (fun j => j)
  obtain ⟨batch, hb, hlen, hget⟩ := h.1 (by decide)
  have hbatch : some batch = some [sampleExp 0, sampleExp 1] := by
    rw [← hb]
    decide
  exact ⟨hb.trans hbatch, hfail.2 (by decide) (by decide)⟩

/-- Counterexample to C6 as stated: with batch_size = 0 the sampling
loop never runs, so even the empty buffer (size below 2) does not
fail. -/
theorem get_batch_experience_size_zero_cex :
    ReplayBuffer.get_batch_experience ([] : List (Experience ℕ)) 0 (fun j => j)
      ≠ none := by decide

/-- C7 amended: a batch_size exceeding the size - 1 sampleable indices
of a buffer of size at least 2 is not rejected: the draw succeeds with
a full batch of batch_size experiences, reusing indices with
replacement; a failure occurs only on a buffer of size below 2 with at
least one draw attempted. -/
theorem get_batch_experience_overdraw (Img : Type)
    (buf : List (Experience Img)) (batch_size : ℕ) (r : ℕ → ℕ)
    (h2 : 2 ≤ buf.length) (hover : buf.length - 1 < batch_size) :
    ∃ batch, ReplayBuffer.get_batch_experience buf batch_size r = some batch
      ∧ batch.length = batch_size := by
  obtain ⟨b, hb, hlen, -⟩ :=
    ReplayBuffer.getBatchAux_sound buf r h2 (List.range batch_size)
  exact ⟨b, hb, by simpa using hlen⟩

/-- Witness for the amended C7: five draws from a buffer with a single
sampleable index succeed. -/
theorem get_batch_experience_overdraw_witness :
    ReplayBuffer.get_batch_experience [sampleExp 0, sampleExp 1] 5 (fun j => j)
      = some [sampleExp 0, sampleExp 0, sampleExp 0, sampleExp 0, sampleExp 0] := by
  obtain ⟨batch, hb, hlen⟩ := get_batch_experience_overdraw ℕ
    [sampleExp 0, sampleExp 1] 5 (fun j => j) (by decide) (by decide)
  have hbatch : some batch
      = some [sampleExp 0, sampleExp 0, sampleExp 0, sampleExp 0, sampleExp 0] := by
    rw [← hb]
    decide
  exact hb.trans hbatch

/-- Counterexample to C7 as stated: a buffer of size 2 has only one
sampleable index, yet a batch of five draws succeeds instead of
failing fast. -/
theorem get_batch_experience_overdraw_cex :
    ReplayBuffer.get_batch_experience [sampleExp 4, sampleExp 5] 5 (fun j => j)
      ≠ none := by decide

/-- clampQ agrees with the clamp written as its two boundary cases. -/
lemma clampQ_eq_ite (x lo hi : ℚ) (h : lo ≤ hi) :
    clampQ x lo hi = if x < lo then lo else if hi < x then hi else x := by
  unfold clampQ
  split_ifs with a b
  · rw [min_eq_left (by linarith), max_eq_left (by linarith)]
  · rw [min_eq_right (by linarith), max_eq_right h]
  · rw [min_eq_left (by linarith), max_eq_right (by linarith)]

/-- C8: DQNAgent.reward equals -0.01 times the sum of squares of the
pre-transition vector clamped to [-3, 3] (the spec formula), lies in
[-3, 3] for every input, ignores the post-transition vector, and is 0
on the zero vector. -/
theorem reward_formula_and_bounds (v w w2 : List ℚ) :
    DQNAgent.reward v w = specReward v
    ∧ (-3 : ℚ) ≤ DQNAgent.reward v w
    ∧ DQNAgent.reward v w ≤ 3
    ∧ DQNAgent.reward v w = DQNAgent.reward v w2
    ∧ DQNAgent.reward [0, 0] w = 0 := by
  refine ⟨?_, ?_, ?_, rfl, ?_⟩
  · unfold DQNAgent.reward specReward
    exact clampQ_eq_ite _ _ _ (by norm_num)
  · exact le_max_left _ _
  · exact max_le (by norm_num) (min_le_right _ _)
  · unfold DQNAgent.reward clampQ
    norm_num

/-- Accumulating additions in a foldl is summing over the mapped
list. -/
lemma foldl_add_map (f : β → ℚ) (l : List β) (a : ℚ) :
    l.foldl (fun acc e => acc + f e) a = a + (l.map f).sum := by
  induction l generalizing a with
  | nil => simp
  | cons e l ih => simp [ih, add_assoc]

/-- C1: for every batch, the loss accumulated by DQNAgent.train equals
the sum over the batch of the squared [-1, 1]-clamped TD errors
(target = reward + discount times the detached target-network maximum
at the next observation, predicted = online score of the stored action
at the stored observation), divided by batch_size. -/
theorem train_loss_eq_spec (Img : Type) (qnet : Observation Img → ℕ → ℚ)
    (qnet_support : Observation Img → List ℚ) (reward_discount batch_size : ℚ)
    (batch : List (Experience Img)) :
    DQNAgent.train_loss qnet qnet_support reward_discount batch_size batch
      = specBatchLoss qnet qnet_support reward_discount batch_size batch := by
  unfold DQNAgent.train_loss specBatchLoss
  rw [foldl_add_map (fun experience =>
    (clampQ ((DQNAgent.reward experience.observation.vector
        experience.next_observation.vector
      + reward_discount * tensorMax (qnet_support experience.next_observation))
      - qnet experience.observation experience.action) (-1) 1) ^ 2) batch 0]
  rw [zero_add]

/-- The concrete optimizer update used by witnesses. -/
def optStepC : ℤ → ℤ → List (Experience ℕ) → ℤ := fun q _ _ => q + 1

/-- A concrete agent state before a train call. -/
def agentS0 : AgentState ℤ ℕ := ⟨1, 5, 3, [sampleExp 0, sampleExp 1]⟩

/-- The concrete agent state after the train call on agentS0. -/
def agentS1 : AgentState ℤ ℕ := ⟨2, 5, 3, [sampleExp 0, sampleExp 1]⟩

/-- C9: a successful DQNAgent.train call leaves the target parameters,
the replay buffer and the tick untouched; only the online parameters
move, by the optimizer step on the drawn batch. -/
theorem train_updates_online_only (P Img : Type)
    (optStep : P → P → List (Experience Img) → P) (batch_size : ℕ) (r : ℕ → ℕ)
    (s t : AgentState P Img)
    (h : DQNAgent.train optStep batch_size r s = some t) :
    t.qnet_support = s.qnet_support
    ∧ t.replay = s.replay
    ∧ t.time_tick = s.time_tick
    ∧ ∃ batch, ReplayBuffer.get_batch_experience s.replay batch_size r = some batch
        ∧ t.qnet = optStep s.qnet s.qnet_support batch := by
  unfold DQNAgent.train at h
  cases hb : ReplayBuffer.get_batch_experience s.replay batch_size r with
  | none =>
    rw [hb] at h
    exact absurd h (by simp)
  | some batch =>
    rw [hb] at h
    simp only [Option.some.injEq] at h
    subst h
    exact ⟨rfl, rfl, rfl, batch, rfl, rfl⟩

/-- Witness for C9: the concrete train call from agentS0 reaches
agentS1 and leaves target, buffer and tick unchanged. -/
theorem train_updates_online_only_witness :
    agentS1.qnet_support = agentS0.qnet_support
    ∧ agentS1.replay = agentS0.replay
    ∧ agentS1.time_tick = agentS0.time_tick := by
  have h := train_updates_online_only ℤ ℕ optStepC 1 (fun j => j)
    agentS0 agentS1 (by decide)
  exact ⟨h.1, h.2.1, h.2.2.1⟩

/-- The tick counter of the step sync block counts steps modulo
iteration + 1 when started from 0. -/
lemma DQNAgent.stepSyncIter_tick (P Img : Type) (iteration : ℕ) (u : ℕ → P → P)
    (s0 : AgentState P Img) (h0 : s0.time_tick = 0) :
    ∀ n, (DQNAgent.stepSyncIter iteration u s0 n).time_tick = n % (iteration + 1) := by
  intro n
  induction n with
  | zero => simpa using h0
  | succ n ih =>
    have hstep : DQNAgent.stepSyncIter iteration u s0 (n + 1)
        = DQNAgent.stepSync iteration (u n) (DQNAgent.stepSyncIter iteration u s0 n) := rfl
    rw [hstep]
    unfold DQNAgent.stepSync
    by_cases hc : (DQNAgent.stepSyncIter iteration u s0 n).time_tick = iteration
    · rw [if_pos hc]
      rw [ih] at hc
      have hmod : (n + 1) % (iteration + 1) = 0 := by
        rcases Nat.eq_zero_or_pos iteration with h | h
        · subst h
          simp [Nat.mod_one]
        · rw [Nat.add_mod, hc, Nat.mod_eq_of_lt (show 1 < iteration + 1 by omega)]
          exact Nat.mod_self _
      simp [hmod]
    · rw [if_neg hc]
      rw [ih] at hc
      rcases Nat.eq_zero_or_pos iteration with h | h
      · subst h
        simp [Nat.mod_one] at hc
      · have hlt : n % (iteration + 1) < iteration + 1 :=
          Nat.mod_lt _ (by omega)
        have hmod : (n + 1) % (iteration + 1) = n % (iteration + 1) + 1 := by
          rw [Nat.add_mod, Nat.mod_eq_of_lt (show 1 < iteration + 1 by omega)]
          exact Nat.mod_eq_of_lt (by omega)
        simp [hmod, ih]

/-- C3 amended: starting from a fresh tick, after n steps the tick
equals n mod (iteration + 1), and the step n + 1 copies the (post
train-update) online parameters into the target exactly when the tick
has reached iteration, that is on steps that are multiples of
iteration + 1 — the target is re-synchronised every iteration + 1
steps, not every iteration steps; on all other steps the target is
untouched and the tick is incremented. -/
theorem target_sync_period (P Img : Type) (iteration : ℕ) (u : ℕ → P → P)
    (s0 : AgentState P Img) (h0 : s0.time_tick = 0) (n : ℕ) :
    (DQNAgent.stepSyncIter iteration u s0 n).time_tick = n % (iteration + 1)
    ∧ (n % (iteration + 1) = iteration →
        (DQNAgent.stepSyncIter iteration u s0 (n + 1)).qnet_support
          = u n ((DQNAgent.stepSyncIter iteration u s0 n).qnet))
    ∧ (n % (iteration + 1) ≠ iteration →
        (DQNAgent.stepSyncIter iteration u s0 (n + 1)).qnet_support
          = (DQNAgent.stepSyncIter iteration u s0 n).qnet_support) := by
  have htick := DQNAgent.stepSyncIter_tick P Img iteration u s0 h0
  have hstep : DQNAgent.stepSyncIter iteration u s0 (n + 1)
      = DQNAgent.stepSync iteration (u n) (DQNAgent.stepSyncIter iteration u s0 n) := rfl
  refine ⟨htick n, ?_, ?_⟩
  · intro h
    rw [hstep]
    unfold DQNAgent.stepSync
    rw [if_pos (by rw [htick n]; exact h)]
  · intro h
    rw [hstep]
    unfold DQNAgent.stepSync
    rw [if_neg (by rw [htick n]; exact h)]

/-- The per-step online update used by the C3 witness. -/
def uC : ℕ → ℤ → ℤ := fun _ q => q + 1

/-- Fresh agent state for the C3 witness. -/
def syncW0 : AgentState ℤ ℕ := ⟨0, 10, 0, []⟩

/-- Witness for the amended C3 with iteration = 2: tick 2 after two
steps, and step three performs the copy. -/
theorem target_sync_period_witness :
    (DQNAgent.stepSyncIter 2 uC syncW0 2).time_tick = 2 % 3
    ∧ (DQNAgent.stepSyncIter 2 uC syncW0 3).qnet_support
        = uC 2 ((DQNAgent.stepSyncIter 2 uC syncW0 2).qnet) := by
  have h := target_sync_period ℤ ℕ 2 uC syncW0 (by decide) 2
  exact ⟨h.1, h.2.1 (by decide)⟩

/-- The identity online update used by the C3 counterexample. -/
def idUpdate : ℕ → ℤ → ℤ := fun _ q => q

/-- Fresh agent state with differing online and target parameters for
the C3 counterexample. -/
def syncS0 : AgentState ℤ ℕ := ⟨1, 0, 0, []⟩

/-- Counterexample to C3 as stated: with iteration = 1 the target is
not re-synchronised after 1 step (the code checks the tick before
incrementing, so the first copy only happens on step iteration + 1). -/
theorem target_sync_cex :
    (DQNAgent.stepSyncIter 1 idUpdate syncS0 1).qnet_support
      ≠ (DQNAgent.stepSyncIter 1 idUpdate syncS0 1).qnet := by decide

/-- The key/shape metadata of a freshly initialised QNet state_dict is
exactly its shape table. -/
lemma QNet.init_shapes (n_images vector_dim n_action : ℕ)
    (init : String → List ℕ → List ℚ) :
    List.map (fun p => (p.1, p.2.shape))
        (QNet.init_state_dict n_images vector_dim n_action init)
      = QNet.param_shapes n_images vector_dim n_action := rfl

/-- The support network (n_images = 1) and the online network
(n_images = input_time_horizon) have matching parameter shapes exactly
when the horizon is 1: only conv1.weight depends on n_images. -/
lemma QNet.param_shapes_eq_iff (h n_action : ℕ) :
    QNet.param_shapes 1 2 n_action = QNet.param_shapes h 2 n_action ↔ h = 1 := by
  simp [QNet.param_shapes]

/-- C4 amended: the construction-time copy (and hence every later
target sync through the same load_state_dict) succeeds exactly when
input_time_horizon = 1, in which case the target state_dict becomes
identical to the online state_dict and any evaluation on identical
inputs agrees; for every other horizon the copy raises a size mismatch
and no synchronised state exists. -/
theorem init_networks_param_equality (input_time_horizon n_action : ℕ)
    (initQ initS : String → List ℕ → List ℚ) :
    (DQNAgent.init_networks input_time_horizon n_action initQ initS = none
      ↔ input_time_horizon ≠ 1)
    ∧ (∀ q d, DQNAgent.init_networks input_time_horizon n_action initQ initS
          = some (q, d) →
        d = q ∧ ∀ (A B : Type) (forward : StateDict → A → B) (x : A),
          forward d x = forward q x) := by
  have hshape : (List.map (fun p => (p.1, p.2.shape))
        (QNet.init_state_dict 1 2 n_action initS)
      = List.map (fun p => (p.1, p.2.shape))
        (QNet.init_state_dict input_time_horizon 2 n_action initQ))
      ↔ input_time_horizon = 1 := by
    rw [QNet.init_shapes, QNet.init_shapes]
    exact QNet.param_shapes_eq_iff input_time_horizon n_action
  by_cases hc : List.map (fun p => (p.1, p.2.shape))
        (QNet.init_state_dict 1 2 n_action initS)
      = List.map (fun p => (p.1, p.2.shape))
        (QNet.init_state_dict input_time_horizon 2 n_action initQ)
  · have hrun : DQNAgent.init_networks input_time_horizon n_action initQ initS
        = some (QNet.init_state_dict input_time_horizon 2 n_action initQ,
                QNet.init_state_dict input_time_horizon 2 n_action initQ) := by
      simp only [DQNAgent.init_networks, load_state_dict]
      rw [if_pos hc]
    rw [hrun]
    constructor
    · constructor
      · intro contra
        exact absurd contra (by simp)
      · intro hne
        exact absurd (hshape.mp hc) hne
    · intro q d hqd
      rw [Option.some.injEq, Prod.mk.injEq] at hqd
      obtain ⟨hq, hd⟩ := hqd
      subst hq
      subst hd
      exact ⟨rfl, fun A B forward x => rfl⟩
  · have hrun : DQNAgent.init_networks input_time_horizon n_action initQ initS
        = none := by
      simp only [DQNAgent.init_networks, load_state_dict]
      rw [if_neg hc]
    rw [hrun]
    constructor
    · constructor
      · intro _
        intro h1
        exact hc (hshape.mpr h1)
      · intro _
        rfl
    · intro q d hqd
      exact absurd hqd (by simp)

/-- The trivial tensor initialiser used by the C4 witness and
counterexample. -/
def zeroInitF : String → List ℕ → List ℚ := fun _ _ => []

/-- Counterexample to C4 as stated: with input_time_horizon = 2 the
construction-time load_state_dict fails with a size mismatch on
conv1.weight, so there is no post-sync state with equal parameters for
that configured horizon. -/
theorem init_networks_horizon_two_cex :
    DQNAgent.init_networks 2 4 zeroInitF zeroInitF = none := by decide

/-- Witness for the amended C4: horizon 3 is rejected through the iff,
and the successful horizon-1 construction yields a target dict equal to
the online dict. -/
theorem init_networks_param_equality_witness :
    DQNAgent.init_networks 3 4 zeroInitF zeroInitF = none
    ∧ QNet.init_state_dict 1 2 4 zeroInitF = QNet.init_state_dict 1 2 4 zeroInitF := by
  have h3 := init_networks_param_equality 3 4 zeroInitF zeroInitF
  have h1 := init_networks_param_equality 1 4 zeroInitF zeroInitF
  refine ⟨h3.1.mpr (by decide), ?_⟩
  exact (h1.2 (QNet.init_state_dict 1 2 4 zeroInitF)
    (QNet.init_state_dict 1 2 4 zeroInitF) (by decide)).1
